import Mathlib

/-! The TX/RX cycle of `txTaskFunction` (src/transceiver.c).

A shallow embedding of the task's endless loop.  One iteration of `while(1)`
(lines 173-292) is the function `cycle`; what the radio, `rand()` and the radio
clock answer during that iteration is its `Env` argument.  Machine integers are
natural numbers reduced modulo `2^w` where the C type is `w` bits wide.
-/

namespace Transceiver

/-! ## Configuration (lines 53-89) -/

/-- Line 75: frequency used for tx/rx, in MHz. -/
def FREQUENCY : Nat := 2450

/-- Line 78. -/
def TX_PAYLOAD_LENGTH : Nat := 4

/-- Line 81: constant header size of a generic data entry. -/
def DATA_ENTRY_HEADER_SIZE : Nat := 8

/-- Line 82: max length byte the radio will accept. -/
def RX_MAX_LENGTH : Nat := 30

/-- Line 84: the header (length) byte and the status byte around the payload. -/
def NUM_APPENDED_BYTES : Nat := 2

/-- Line 88: minimum time to stay in receiving mode. -/
def RX_MIN_TIMEOUT : Nat := 3

/-- Line 89: maximum time to stay in receiving mode. -/
def RX_MAX_TIMEOUT : Nat := 7

/-- Line 120: the number of bytes of
`static uint8_t rxPacket[RX_MAX_LENGTH + NUM_APPENDED_BYTES - 1]`. -/
def rxPacketSize : Nat := RX_MAX_LENGTH + NUM_APPENDED_BYTES - 1

/-- Values that the program takes from the vendor's headers (`RF.h`,
`rf_data_entry.h`, `rf_prop_mailbox.h`), which are not among the sources.  They
are a parameter of the model: the event bit tested after `RF_pendCmd`, the two
command status codes the loop compares with, the entry status `finished`, and
the byte offsets of the fields `status` and `length` inside
`rfc_dataEntryGeneral_t`.  The field `data` of that record sits right behind the
header, at offset `DATA_ENTRY_HEADER_SIZE`. -/
structure Vendor where
  RF_EventLastCmdDone : Nat
  PROP_DONE_OK : Nat
  PROP_DONE_RXTIMEOUT : Nat
  DATA_ENTRY_FINISHED : Nat
  statusOffset : Nat
  lengthOffset : Nat

/-- The header fields lie inside the header and `status` is not one of the two
bytes of the 16-bit `length`. -/
def Vendor.WellFormed (V : Vendor) : Prop :=
  V.statusOffset < DATA_ENTRY_HEADER_SIZE ∧ V.lengthOffset + 1 < DATA_ENTRY_HEADER_SIZE ∧
    V.statusOffset ≠ V.lengthOffset ∧ V.statusOffset ≠ V.lengthOffset + 1

instance (V : Vendor) : Decidable V.WellFormed := by
  unfold Vendor.WellFormed; infer_instance

/-- The values of the CC13xx/CC26xx SDK: `RF_EventLastCmdDone = 1 << 1`,
`PROP_DONE_OK = 0x3400`, `PROP_DONE_RXTIMEOUT = 0x3401`,
`DATA_ENTRY_FINISHED = 3`, and the record
`{ uint8_t* pNextEntry; uint8_t status; config; uint16_t length; uint8_t data; }`
with a 32-bit pointer: `status` at 4, `length` at 6, `data` at 8. -/
def cc26xx : Vendor :=
  { RF_EventLastCmdDone := 2
    PROP_DONE_OK := 0x3400
    PROP_DONE_RXTIMEOUT := 0x3401
    DATA_ENTRY_FINISHED := 3
    statusOffset := 4
    lengthOffset := 6 }

/-! ## Data model -/

/-- Byte memory seen from `&rxPacket[0]`: `bytes a` is the byte at that address
plus `a`.  Offsets below `rxPacketSize` are `rxPacket` itself, larger ones are
whatever is placed behind it.  `touched` lists, in order, the offsets the task's
own code has loaded from or stored to. -/
structure Memory where
  bytes : Nat → Nat
  touched : List Nat

/-- A byte load by the task. -/
def Memory.load (m : Memory) (a : Nat) : Nat × Memory :=
  (m.bytes a, { m with touched := m.touched ++ [a] })

/-- A byte store by the task. -/
def Memory.store (m : Memory) (a v : Nat) : Memory :=
  { bytes := fun i => if i = a then v else m.bytes i
    touched := m.touched ++ [a] }

/-- A 16-bit store, low byte first (the core is little-endian). -/
def Memory.store16 (m : Memory) (a v : Nat) : Memory :=
  (m.store a (v % 256)).store (a + 1) (v / 256 % 256)

/-- A 16-bit value as stored by `store16`. -/
def Memory.peek16 (m : Memory) (a : Nat) : Nat :=
  m.bytes a + 256 * m.bytes (a + 1)

/-- The call `memcpy(dst, src, n)` as a copy byte by byte in ascending order.
(C leaves the result open when the two areas overlap; the ascending copy is the
behaviour modelled here.) -/
def memcpy (dst src : Nat) : Nat → Memory → Memory
  | 0, m => m
  | n + 1, m => memcpy (dst + 1) (src + 1) n ((m.load src).2.store dst (m.load src).1)

/-- The print loop of lines 259-261: loads `p[0]`, ..., `p[n-1]` in order. -/
def loadBytes (p : Nat) : Nat → Memory → List Nat × Memory
  | 0, m => ([], m)
  | n + 1, m =>
    let r := loadBytes (p + 1) n (m.load p).2
    ((m.load p).1 :: r.1, r.2)

/-- The two board LEDs. -/
inductive Pin
  | Board_LED0
  | Board_LED1
  deriving DecidableEq

/-- What the task prints with `System_printf`. -/
inductive Out
  | frequencySet (mhz : Nat)
  | sendingData (bytes : List Nat)
  | errorWhileSending
  | dataReceived (bytes : List Nat) (len : Nat)
  | timeoutExpired (seconds : Nat)
  | otherReason (code : Nat)
  deriving DecidableEq

/-- The radio commands posted with `RF_postCmd`, with the fields the task set:
a pointer is an offset from `&rxPacket[0]`, `none` is `NULL`. -/
inductive Cmd
  | fs (frequency : Nat)
  | propTx (pPkt : List Nat) (pktLen : Nat)
  | propRx (maxPktLen endTime : Nat) (pCurrEntry pLastEntry : Option Nat)
  deriving DecidableEq

/-- Where the task is: at the top of the loop, or in one of the two `while(1);`
that follow a failed command (line 207 after TX, line 287 after RX). -/
inductive Loc
  | loopTop
  | spinTx
  | spinRx
  deriving DecidableEq

/-- The variables of the task and the traces of what it did to the outside. -/
structure State where
  pc : Loc
  seqNumber : Nat
  txPacket : List Nat
  mem : Memory
  rxPacketLength : Nat
  currentDataEntry : Nat
  rxPacketDataPointer : Nat
  pCurrEntry : Option Nat
  pLastEntry : Option Nat
  txPktLen : Nat
  maxPktLen : Nat
  endTime : Nat
  rxStatus : Nat
  led0 : Bool
  led1 : Bool
  pinLog : List (Pin × Bool)
  console : List Out
  posted : List Cmd

/-- What the outside answers during one iteration: the event mask of the TX
`RF_pendCmd`, the value of `rand()`, the value of `RF_getCurrentTime()`, the
memory as the radio leaves it when the RX command ends, `RF_cmdPropRx.status`
at that moment, and the event mask of the RX `RF_pendCmd`. -/
structure Env where
  txResult : Nat
  rand : Nat
  now : Nat
  rxRam : Nat → Nat
  rxStatus : Nat
  rxResult : Nat

/-! ## The steps of the loop -/

/-- Lines 177 and 215: `PIN_setOutputValue(pinHandle, Board_LED1, !PIN_getOutputValue(Board_LED1))`. -/
def toggleLED1 (s : State) : State :=
  { s with led1 := !s.led1, pinLog := s.pinLog ++ [(Pin.Board_LED1, !s.led1)] }

/-- Lines 219, 245, 265 and 291: the same for `Board_LED0`. -/
def toggleLED0 (s : State) : State :=
  { s with led0 := !s.led0, pinLog := s.pinLog ++ [(Pin.Board_LED0, !s.led0)] }

/-- Lines 180-183: all four bytes of `txPacket` are assigned, `seqNumber++` is a
16-bit increment and 97 is the character a. -/
def buildPacket (s : State) : State :=
  { s with
    txPacket := [(s.seqNumber >>> 8) % 256, s.seqNumber % 256, 97, 97]
    seqNumber := (s.seqNumber + 1) % 65536 }

/-- Lines 185-192: the bytes of `txPacket` go to the console. -/
def printTx (s : State) : State :=
  { s with console := s.console ++ [Out.sendingData s.txPacket] }

/-- Line 195: `RF_cmdPropTx` is posted; `pPkt` points to `txPacket`. -/
def postTx (s : State) : State :=
  { s with posted := s.posted ++ [Cmd.propTx s.txPacket s.txPktLen] }

/-- Lines 221-225: the entry is laid over `rxPacket` (offset 0 of the memory) and
handed to the queue. -/
def armDataEntry (V : Vendor) (s : State) : State :=
  let entry := 0
  let m := s.mem.store16 (entry + V.lengthOffset) (1 + RX_MAX_LENGTH + NUM_APPENDED_BYTES)
  let m := m.store (entry + V.statusOffset) 0
  { s with currentDataEntry := entry, mem := m, pCurrEntry := some entry, pLastEntry := none }

/-- The field `status` of the entry `currentDataEntry` points to. -/
def entryStatus (V : Vendor) (s : State) : Nat :=
  s.mem.bytes (s.currentDataEntry + V.statusOffset)

/-- The field `length` of the entry `currentDataEntry` points to. -/
def entryLength (V : Vendor) (s : State) : Nat :=
  s.mem.peek16 (s.currentDataEntry + V.lengthOffset)

/-- Line 228: `uint8_t timeout = RX_MIN_TIMEOUT + (rand() % (RX_MAX_TIMEOUT-RX_MIN_TIMEOUT))`
for a value `r ≥ 0` of `rand()`. -/
def pickTimeout (r : Nat) : Nat :=
  (RX_MIN_TIMEOUT + r % (RX_MAX_TIMEOUT - RX_MIN_TIMEOUT)) % 256

/-- How many low bits a natural number loses when it is stored with a 24-bit
significand (`fuel` bounds the search). -/
def f32Shift : Nat → Nat → Nat
  | 0, _ => 0
  | fuel + 1, n => if n < 2 ^ 24 then 0 else 1 + f32Shift fuel (n / 2)

/-- Conversion of a 32-bit `int` value `n ≥ 0` to `float` (IEEE binary32):
rounded to 24 significant bits, to nearest, ties to even.  The result is the
natural number the float stands for. -/
def intToFloat32 (n : Nat) : Nat :=
  let e := f32Shift 32 n
  let q := n / 2 ^ e
  let r := n % 2 ^ e
  if 2 * r < 2 ^ e then q * 2 ^ e
  else if 2 * r = 2 ^ e ∧ q % 2 = 0 then q * 2 ^ e
  else (q + 1) * 2 ^ e

/-- The term `(uint32_t)(timeout*8000000*0.5f)` of line 230: the `int` product is
converted to `float`, halved (exact in binary floating point) and truncated
towards zero. -/
def halfTicks (timeout : Nat) : Nat :=
  intToFloat32 (timeout * 8000000) / 2 % 2 ^ 32

/-- Line 230: `RF_cmdPropRx.endTime = RF_getCurrentTime() + (uint32_t)(timeout*8000000*0.5f)`,
an addition of 32-bit unsigned values. -/
def rxEndTime (now timeout : Nat) : Nat :=
  (now + halfTicks timeout) % 2 ^ 32

/-- Line 234: `RF_cmdPropRx` is posted with the queue and the end time. -/
def postRx (s : State) : State :=
  { s with posted := s.posted ++ [Cmd.propRx s.maxPktLen s.endTime s.pCurrEntry s.pLastEntry] }

/-- Lines 245-265: the data path.  The length is the first byte of the field
`data`, the payload starts at the second; `rxPacketLength + 1` bytes are copied
to `rxPacket`, then `rxPacketLength` bytes are printed from where
`rxPacketDataPointer` points. -/
def extractPacket (s : State) : State :=
  let s := toggleLED0 s
  let data := s.currentDataEntry + DATA_ENTRY_HEADER_SIZE
  let len := (s.mem.load data).1 % 256
  let p := data + 1
  let m := memcpy 0 p (len + 1) (s.mem.load data).2
  let printed := loadBytes p len m
  let s := { s with
    rxPacketLength := len
    rxPacketDataPointer := p
    mem := printed.2
    console := s.console ++ [Out.dataReceived printed.1 len] }
  toggleLED0 s

/-- Lines 241-279: what the task does with a finished RX command. -/
def handleRx (V : Vendor) (timeout : Nat) (s : State) : State :=
  if s.rxStatus = V.PROP_DONE_OK then
    let st := s.mem.load (s.currentDataEntry + V.statusOffset)
    let s := { s with mem := st.2 }
    if st.1 = V.DATA_ENTRY_FINISHED then extractPacket s else s
  else if s.rxStatus = V.PROP_DONE_RXTIMEOUT then
    { s with console := s.console ++ [Out.timeoutExpired timeout] }
  else
    { s with console := s.console ++ [Out.otherReason s.rxStatus] }

/-- Lines 177-195: the TX half of an iteration up to the posted command. -/
def txPhase (s : State) : State :=
  postTx (printTx (buildPacket (toggleLED1 s)))

/-- Lines 219-237: the state in which the RX `RF_pendCmd` returns.  The entry is
armed, the end time set and the command posted; then the radio has run. -/
def rxSubmit (V : Vendor) (e : Env) (s : State) : State :=
  let s := toggleLED0 s
  let s := armDataEntry V s
  let s := { s with endTime := rxEndTime e.now (pickTimeout e.rand) }
  let s := postRx s
  { s with mem := { s.mem with bytes := e.rxRam }, rxStatus := e.rxStatus }

/-- Lines 219-291: the RX half of an iteration. -/
def rxPhase (V : Vendor) (e : Env) (s : State) : State :=
  if e.rxResult &&& V.RF_EventLastCmdDone ≠ 0 then
    toggleLED0 (handleRx V (pickTimeout e.rand) (rxSubmit V e s))
  else
    { rxSubmit V e s with
      console := (rxSubmit V e s).console ++ [Out.errorWhileSending]
      pc := Loc.spinRx }

/-- One iteration of `while(1)` (lines 173-292), `DEBUG = 1` and `DELAY = 0`.
In a `while(1);` the task stays where it is. -/
def cycle (V : Vendor) (e : Env) (s : State) : State :=
  match s.pc with
  | Loc.spinTx => s
  | Loc.spinRx => s
  | Loc.loopTop =>
    if e.txResult &&& V.RF_EventLastCmdDone ≠ 0 then
      rxPhase V e (toggleLED1 (txPhase s))
    else
      { txPhase s with
        console := (txPhase s).console ++ [Out.errorWhileSending]
        pc := Loc.spinTx }

/-- Lines 142-171: the command fields set once, and the frequency command. -/
def taskInit (s : State) : State :=
  { s with
    txPktLen := TX_PAYLOAD_LENGTH
    maxPktLen := RX_MAX_LENGTH
    posted := s.posted ++ [Cmd.fs FREQUENCY]
    console := s.console ++ [Out.frequencySet FREQUENCY] }

/-- Iterations of the loop, one per element of the list. -/
def run (V : Vendor) : List Env → State → State
  | [], s => s
  | e :: es, s => run V es (cycle V e s)

/-- The task body: initialisation, then the loop. -/
def txTaskFunction (V : Vendor) (es : List Env) (s : State) : State :=
  run V es (taskInit s)

/-- The statics at reset: zero-initialised, LEDs low (lines 64-68). -/
def resetState : State :=
  { pc := Loc.loopTop
    seqNumber := 0
    txPacket := [0, 0, 0, 0]
    mem := { bytes := fun _ => 0, touched := [] }
    rxPacketLength := 0
    currentDataEntry := 0
    rxPacketDataPointer := 0
    pCurrEntry := none
    pLastEntry := none
    txPktLen := 0
    maxPktLen := 0
    endTime := 0
    rxStatus := 0
    led0 := false
    led1 := false
    pinLog := []
    console := []
    posted := [] }

/-- A memory whose first bytes are those of the list; the rest is zero. -/
def ramOfList (l : List Nat) : Nat → Nat :=
  fun a => l.getD a 0

/-- An answer of the outside in which both commands end with the done event and
the RX command times out. -/
def quietEnv : Env :=
  { txResult := 2, rand := 5, now := 1000, rxRam := fun _ => 0, rxStatus := 0x3401, rxResult := 2 }

/-- An answer of the outside in which the TX command ends with an error event
and without the done event. -/
def txErrorEnv : Env :=
  { txResult := 32, rand := 5, now := 1000, rxRam := fun _ => 0, rxStatus := 0, rxResult := 2 }

/-- An answer of the outside in which the RX command ends OK and the radio has
left in the entry the header bytes `hdr` (eight of them) and, in the field
`data`, the length byte `len`, the payload `p` and the status byte `st`. -/
def receiveEnv (hdr : List Nat) (len : Nat) (p : List Nat) (st : Nat) : Env :=
  { txResult := 2, rand := 5, now := 1000
    rxRam := ramOfList (hdr ++ len :: p ++ [st])
    rxStatus := 0x3400, rxResult := 2 }

/-- A finished entry header for `cc26xx`: `status = 3`, `length = 33`. -/
def finishedHeader : List Nat := [0, 0, 0, 0, 3, 0, 33, 0]

/-- The payload `[1, 2, ..., n]`. -/
def countingPayload (n : Nat) : List Nat :=
  (List.range n).map (fun i => i + 1)

/-- A finished packet whose length byte is 31, one more than `RX_MAX_LENGTH`. -/
def overlongEnv : Env :=
  receiveEnv finishedHeader 31 (countingPayload 31) 170

/-- A finished packet of nine payload bytes. -/
def ninePacketEnv : Env :=
  receiveEnv finishedHeader 9 [1, 2, 3, 4, 5, 6, 7, 8, 9] 170

/-- Modelled from the spec: the radio core is not part of the sources.  The
offsets at which it stores a received packet with length byte `len` in the entry
at offset `entry`: in the field `data` the length byte, `len` payload bytes and
one status byte (lines 84-87). -/
def radioStoreOffsets (entry len : Nat) : List Nat :=
  (List.range (1 + len + 1)).map (fun i => entry + DATA_ENTRY_HEADER_SIZE + i)

/-! ## Lemmas about the steps -/

theorem memcpy_touched_sub (dst src n : Nat) (m : Memory) (a : Nat) (h : a ∈ m.touched) :
    a ∈ (memcpy dst src n m).touched := by
  induction n generalizing dst src m with
  | zero => simpa [memcpy] using h
  | succ n ih =>
    rw [memcpy]
    apply ih
    simp [Memory.load, Memory.store, h]

theorem memcpy_touched_src (dst src n : Nat) (m : Memory) (i : Nat) (h : i < n) :
    src + i ∈ (memcpy dst src n m).touched := by
  induction n generalizing dst src m i with
  | zero => omega
  | succ n ih =>
    rw [memcpy]
    cases i with
    | zero =>
      apply memcpy_touched_sub
      simp [Memory.load, Memory.store]
    | succ i =>
      have := ih (dst + 1) (src + 1) ((m.load src).2.store dst (m.load src).1) i (by omega)
      rw [show src + (i + 1) = src + 1 + i by omega]
      exact this

theorem loadBytes_length (p n : Nat) (m : Memory) : (loadBytes p n m).1.length = n := by
  induction n generalizing p m with
  | zero => simp [loadBytes]
  | succ n ih => simp [loadBytes, ih]

theorem loadBytes_bytes (p n : Nat) (m : Memory) : (loadBytes p n m).2.bytes = m.bytes := by
  induction n generalizing p m with
  | zero => simp [loadBytes]
  | succ n ih => simp [loadBytes, ih, Memory.load]

theorem loadBytes_touched_sub (p n : Nat) (m : Memory) (a : Nat) (h : a ∈ m.touched) :
    a ∈ (loadBytes p n m).2.touched := by
  induction n generalizing p m with
  | zero => simpa [loadBytes] using h
  | succ n ih =>
    simp only [loadBytes]
    apply ih
    simp [Memory.load, h]

theorem run_spin (V : Vendor) (es : List Env) (s : State) (h : s.pc ≠ Loc.loopTop) :
    run V es s = s := by
  induction es with
  | nil => rfl
  | cons e es ih =>
    have hc : cycle V e s = s := by
      unfold cycle
      cases hp : s.pc <;> simp_all
    rw [run, hc, ih]

theorem cycle_tx_error (V : Vendor) (e : Env) (s : State) (hpc : s.pc = Loc.loopTop)
    (h : e.txResult &&& V.RF_EventLastCmdDone = 0) :
    cycle V e s =
      { txPhase s with
        console := (txPhase s).console ++ [Out.errorWhileSending]
        pc := Loc.spinTx } := by
  simp [cycle, hpc, h]

theorem cycle_tx_done (V : Vendor) (e : Env) (s : State) (hpc : s.pc = Loc.loopTop)
    (h : e.txResult &&& V.RF_EventLastCmdDone ≠ 0) :
    cycle V e s = rxPhase V e (toggleLED1 (txPhase s)) := by
  simp [cycle, hpc, h]

theorem rxPhase_done (V : Vendor) (e : Env) (s : State)
    (h : e.rxResult &&& V.RF_EventLastCmdDone ≠ 0) :
    rxPhase V e s = toggleLED0 (handleRx V (pickTimeout e.rand) (rxSubmit V e s)) := by
  unfold rxPhase
  exact if_pos h

theorem rxPhase_error (V : Vendor) (e : Env) (s : State)
    (h : e.rxResult &&& V.RF_EventLastCmdDone = 0) :
    rxPhase V e s =
      { rxSubmit V e s with
        console := (rxSubmit V e s).console ++ [Out.errorWhileSending]
        pc := Loc.spinRx } := by
  unfold rxPhase
  exact if_neg (by simpa using h)

theorem extractPacket_frame (s : State) :
    (extractPacket s).seqNumber = s.seqNumber ∧ (extractPacket s).txPacket = s.txPacket ∧
    (extractPacket s).posted = s.posted ∧ (extractPacket s).pc = s.pc ∧
    (extractPacket s).led1 = s.led1 ∧ (extractPacket s).led0 = s.led0 ∧
    (extractPacket s).pinLog =
      s.pinLog ++ [(Pin.Board_LED0, !s.led0), (Pin.Board_LED0, s.led0)] := by
  simp [extractPacket, toggleLED0]

theorem handleRx_finished (V : Vendor) (t : Nat) (s : State) (h1 : s.rxStatus = V.PROP_DONE_OK)
    (h2 : s.mem.bytes (s.currentDataEntry + V.statusOffset) = V.DATA_ENTRY_FINISHED) :
    handleRx V t s =
      extractPacket { s with mem := (s.mem.load (s.currentDataEntry + V.statusOffset)).2 } := by
  unfold handleRx
  rw [if_pos h1]
  exact if_pos h2

theorem handleRx_unfinished (V : Vendor) (t : Nat) (s : State) (h1 : s.rxStatus = V.PROP_DONE_OK)
    (h2 : s.mem.bytes (s.currentDataEntry + V.statusOffset) ≠ V.DATA_ENTRY_FINISHED) :
    handleRx V t s = { s with mem := (s.mem.load (s.currentDataEntry + V.statusOffset)).2 } := by
  unfold handleRx
  rw [if_pos h1]
  exact if_neg h2

theorem handleRx_timeout (V : Vendor) (t : Nat) (s : State) (h1 : s.rxStatus ≠ V.PROP_DONE_OK)
    (h3 : s.rxStatus = V.PROP_DONE_RXTIMEOUT) :
    handleRx V t s = { s with console := s.console ++ [Out.timeoutExpired t] } := by
  unfold handleRx
  rw [if_neg h1, if_pos h3]

theorem handleRx_other (V : Vendor) (t : Nat) (s : State) (h1 : s.rxStatus ≠ V.PROP_DONE_OK)
    (h3 : s.rxStatus ≠ V.PROP_DONE_RXTIMEOUT) :
    handleRx V t s = { s with console := s.console ++ [Out.otherReason s.rxStatus] } := by
  unfold handleRx
  rw [if_neg h1, if_neg h3]

theorem handleRx_frame (V : Vendor) (t : Nat) (s : State) :
    (handleRx V t s).seqNumber = s.seqNumber ∧ (handleRx V t s).txPacket = s.txPacket ∧
    (handleRx V t s).posted = s.posted ∧ (handleRx V t s).pc = s.pc ∧
    (handleRx V t s).led1 = s.led1 ∧ (handleRx V t s).led0 = s.led0 := by
  by_cases h1 : s.rxStatus = V.PROP_DONE_OK
  · by_cases h2 : s.mem.bytes (s.currentDataEntry + V.statusOffset) = V.DATA_ENTRY_FINISHED
    · rw [handleRx_finished V t s h1 h2]
      simp [extractPacket, toggleLED0]
    · rw [handleRx_unfinished V t s h1 h2]
      simp
  · by_cases h3 : s.rxStatus = V.PROP_DONE_RXTIMEOUT
    · rw [handleRx_timeout V t s h1 h3]
      simp
    · rw [handleRx_other V t s h1 h3]
      simp

theorem rxPhase_frame (V : Vendor) (e : Env) (s : State) :
    (rxPhase V e s).seqNumber = s.seqNumber ∧ (rxPhase V e s).txPacket = s.txPacket ∧
    (rxPhase V e s).led1 = s.led1 ∧
    (rxPhase V e s).posted = s.posted ++
      [Cmd.propRx s.maxPktLen (rxEndTime e.now (pickTimeout e.rand)) (some 0) none] := by
  by_cases h : e.rxResult &&& V.RF_EventLastCmdDone = 0
  · rw [rxPhase_error V e s h]
    simp [rxSubmit, toggleLED0, armDataEntry, postRx]
  · rw [rxPhase_done V e s h]
    simp [rxSubmit, toggleLED0, handleRx_frame, armDataEntry, postRx]

theorem cycle_maxPktLen (V : Vendor) (e : Env) (s : State) :
    (cycle V e s).maxPktLen = s.maxPktLen := by
  have hh : ∀ t x, (handleRx V t x).maxPktLen = x.maxPktLen := by
    intro t x
    by_cases h1 : x.rxStatus = V.PROP_DONE_OK
    · by_cases h2 : x.mem.bytes (x.currentDataEntry + V.statusOffset) = V.DATA_ENTRY_FINISHED
      · rw [handleRx_finished V t x h1 h2]
        simp [extractPacket, toggleLED0]
      · rw [handleRx_unfinished V t x h1 h2]
    · by_cases h3 : x.rxStatus = V.PROP_DONE_RXTIMEOUT
      · rw [handleRx_timeout V t x h1 h3]
      · rw [handleRx_other V t x h1 h3]
  have hr : ∀ x, (rxPhase V e x).maxPktLen = x.maxPktLen := by
    intro x
    by_cases h : e.rxResult &&& V.RF_EventLastCmdDone = 0
    · rw [rxPhase_error V e x h]
      simp [rxSubmit, toggleLED0, armDataEntry, postRx]
    · rw [rxPhase_done V e x h]
      simp [rxSubmit, toggleLED0, hh, armDataEntry, postRx]
  cases hp : s.pc with
  | spinTx => simp [cycle, hp]
  | spinRx => simp [cycle, hp]
  | loopTop =>
    by_cases h : e.txResult &&& V.RF_EventLastCmdDone = 0
    · rw [cycle_tx_error V e s hp h]
      simp [txPhase, postTx, printTx, buildPacket, toggleLED1]
    · rw [cycle_tx_done V e s hp h, hr]
      simp [txPhase, postTx, printTx, buildPacket, toggleLED1]

theorem halfTicks_exact (t : Nat) (h3 : 3 ≤ t) (h7 : t < 7) :
    intToFloat32 (t * 8000000) = t * 8000000 ∧ halfTicks t = t * 4000000 := by
  interval_cases t <;> decide

theorem rxSubmit_fields (V : Vendor) (e : Env) (s : State) :
    (rxSubmit V e s).rxStatus = e.rxStatus ∧ (rxSubmit V e s).mem.bytes = e.rxRam ∧
    (rxSubmit V e s).currentDataEntry = 0 ∧
    (rxSubmit V e s).mem.touched =
      s.mem.touched ++ [V.lengthOffset, V.lengthOffset + 1, V.statusOffset] ∧
    (rxSubmit V e s).rxPacketLength = s.rxPacketLength ∧
    (rxSubmit V e s).console = s.console ∧ (rxSubmit V e s).pc = s.pc ∧
    (rxSubmit V e s).led0 = (!s.led0) ∧ (rxSubmit V e s).led1 = s.led1 ∧
    (rxSubmit V e s).pinLog = s.pinLog ++ [(Pin.Board_LED0, !s.led0)] ∧
    (rxSubmit V e s).endTime = rxEndTime e.now (pickTimeout e.rand) := by
  simp [rxSubmit, postRx, armDataEntry, toggleLED0, Memory.store16, Memory.store]

theorem txDone_fields (s : State) :
    (toggleLED1 (txPhase s)).led1 = s.led1 ∧ (toggleLED1 (txPhase s)).led0 = s.led0 ∧
    (toggleLED1 (txPhase s)).pc = s.pc ∧
    (toggleLED1 (txPhase s)).pinLog =
      s.pinLog ++ [(Pin.Board_LED1, !s.led1), (Pin.Board_LED1, s.led1)] ∧
    (toggleLED1 (txPhase s)).console = s.console ++ [Out.sendingData (buildPacket s).txPacket] ∧
    (toggleLED1 (txPhase s)).mem = s.mem ∧
    (toggleLED1 (txPhase s)).rxPacketLength = s.rxPacketLength := by
  simp [txPhase, postTx, printTx, buildPacket, toggleLED1]

theorem rxPhase_done_pins (V : Vendor) (e : Env) (s : State)
    (hrx : e.rxResult &&& V.RF_EventLastCmdDone ≠ 0) :
    (rxPhase V e s).led1 = s.led1 ∧ (rxPhase V e s).led0 = s.led0 ∧
    (rxPhase V e s).pc = s.pc ∧
    (rxPhase V e s).pinLog = s.pinLog ++ [(Pin.Board_LED0, !s.led0)] ++
      (if e.rxStatus = V.PROP_DONE_OK ∧ e.rxRam V.statusOffset = V.DATA_ENTRY_FINISHED
        then [(Pin.Board_LED0, s.led0), (Pin.Board_LED0, !s.led0)] else []) ++
      [(Pin.Board_LED0, s.led0)] := by
  rw [rxPhase_done V e s hrx]
  obtain ⟨f1, f2, f3, -, -, -, f7, f8, f9, f10, -⟩ := rxSubmit_fields V e s
  obtain ⟨-, -, -, g4, g5, g6⟩ := handleRx_frame V (pickTimeout e.rand) (rxSubmit V e s)
  have hst : (rxSubmit V e s).mem.bytes ((rxSubmit V e s).currentDataEntry + V.statusOffset) =
      e.rxRam V.statusOffset := by
    rw [f2, f3, Nat.zero_add]
  have hs : (handleRx V (pickTimeout e.rand) (rxSubmit V e s)).pinLog =
      (rxSubmit V e s).pinLog ++
        (if e.rxStatus = V.PROP_DONE_OK ∧ e.rxRam V.statusOffset = V.DATA_ENTRY_FINISHED
          then [(Pin.Board_LED0, s.led0), (Pin.Board_LED0, !s.led0)] else []) := by
    by_cases h1 : e.rxStatus = V.PROP_DONE_OK
    · by_cases h2 : e.rxRam V.statusOffset = V.DATA_ENTRY_FINISHED
      · rw [handleRx_finished V _ _ (f1.trans h1) (hst.trans h2), if_pos ⟨h1, h2⟩,
          (extractPacket_frame _).2.2.2.2.2.2]
        simp [f8]
      · rw [handleRx_unfinished V _ _ (f1.trans h1) (by rw [hst]; exact h2),
          if_neg (fun h => h2 h.2)]
        simp
    · rw [if_neg (fun h => h1 h.1)]
      by_cases h3 : e.rxStatus = V.PROP_DONE_RXTIMEOUT
      · rw [handleRx_timeout V _ _ (by rw [f1]; exact h1) (f1.trans h3)]
        simp
      · rw [handleRx_other V _ _ (by rw [f1]; exact h1) (by rw [f1]; exact h3)]
        simp
  refine ⟨?_, ?_, ?_, ?_⟩
  · simp [toggleLED0, g5, f9]
  · simp [toggleLED0, g6, f8]
  · simp [toggleLED0, g4, f7]
  · simp [toggleLED0, hs, g6, f8, f10]

theorem rxPhase_no_data (V : Vendor) (e : Env) (s : State)
    (hrx : e.rxResult &&& V.RF_EventLastCmdDone ≠ 0)
    (hno : ¬ (e.rxStatus = V.PROP_DONE_OK ∧ e.rxRam V.statusOffset = V.DATA_ENTRY_FINISHED)) :
    (rxPhase V e s).rxPacketLength = s.rxPacketLength ∧
    (rxPhase V e s).mem.bytes = e.rxRam ∧
    (rxPhase V e s).mem.touched =
      s.mem.touched ++ [V.lengthOffset, V.lengthOffset + 1, V.statusOffset] ++
        (if e.rxStatus = V.PROP_DONE_OK then [V.statusOffset] else []) ∧
    (rxPhase V e s).console = s.console ++
      (if e.rxStatus = V.PROP_DONE_OK then []
        else if e.rxStatus = V.PROP_DONE_RXTIMEOUT then [Out.timeoutExpired (pickTimeout e.rand)]
        else [Out.otherReason e.rxStatus]) ∧
    (rxPhase V e s).endTime = rxEndTime e.now (pickTimeout e.rand) := by
  rw [rxPhase_done V e s hrx]
  obtain ⟨f1, f2, f3, f4, f5, f6, -, -, -, -, f11⟩ := rxSubmit_fields V e s
  have hst : (rxSubmit V e s).mem.bytes ((rxSubmit V e s).currentDataEntry + V.statusOffset) =
      e.rxRam V.statusOffset := by
    rw [f2, f3, Nat.zero_add]
  by_cases h1 : e.rxStatus = V.PROP_DONE_OK
  · have h2 : e.rxRam V.statusOffset ≠ V.DATA_ENTRY_FINISHED := fun h => hno ⟨h1, h⟩
    rw [handleRx_unfinished V _ _ (f1.trans h1) (by rw [hst]; exact h2)]
    simp [toggleLED0, Memory.load, f2, f3, f4, f5, f6, f11, h1]
  · by_cases h3 : e.rxStatus = V.PROP_DONE_RXTIMEOUT
    · rw [handleRx_timeout V _ _ (by rw [f1]; exact h1) (f1.trans h3)]
      simp only [if_neg h1, if_pos h3]
      simp [toggleLED0, f2, f4, f5, f6, f11]
    · rw [handleRx_other V _ _ (by rw [f1]; exact h1) (by rw [f1]; exact h3)]
      simp only [if_neg h1, if_neg h3]
      simp [toggleLED0, f1, f2, f4, f5, f6, f11]

theorem extractPacket_report (s : State) :
    (extractPacket s).rxPacketLength =
      s.mem.bytes (s.currentDataEntry + DATA_ENTRY_HEADER_SIZE) % 256 ∧
    (∃ bytes, bytes.length = s.mem.bytes (s.currentDataEntry + DATA_ENTRY_HEADER_SIZE) % 256 ∧
      (extractPacket s).console = s.console ++
        [Out.dataReceived bytes (s.mem.bytes (s.currentDataEntry + DATA_ENTRY_HEADER_SIZE) % 256)]) ∧
    (∀ i, i ≤ s.mem.bytes (s.currentDataEntry + DATA_ENTRY_HEADER_SIZE) % 256 →
      s.currentDataEntry + DATA_ENTRY_HEADER_SIZE + 1 + i ∈ (extractPacket s).mem.touched) := by
  refine ⟨rfl, ⟨_, ?_, rfl⟩, ?_⟩
  · exact loadBytes_length _ _ _
  · intro i hi
    simp only [toggleLED0, extractPacket, Memory.load] at hi ⊢
    apply loadBytes_touched_sub
    exact memcpy_touched_src _ _ _ _ i (by omega)

theorem rxPhase_data (V : Vendor) (e : Env) (s : State)
    (hrx : e.rxResult &&& V.RF_EventLastCmdDone ≠ 0)
    (hok : e.rxStatus = V.PROP_DONE_OK)
    (hfin : e.rxRam V.statusOffset = V.DATA_ENTRY_FINISHED) :
    (rxPhase V e s).rxPacketLength = e.rxRam DATA_ENTRY_HEADER_SIZE % 256 ∧
    (∃ bytes, bytes.length = e.rxRam DATA_ENTRY_HEADER_SIZE % 256 ∧
      (rxPhase V e s).console =
        s.console ++ [Out.dataReceived bytes (e.rxRam DATA_ENTRY_HEADER_SIZE % 256)]) ∧
    (∀ i, i ≤ e.rxRam DATA_ENTRY_HEADER_SIZE % 256 →
      DATA_ENTRY_HEADER_SIZE + 1 + i ∈ (rxPhase V e s).mem.touched) := by
  rw [rxPhase_done V e s hrx]
  obtain ⟨f1, f2, f3, -, -, f6, -, -, -, -, -⟩ := rxSubmit_fields V e s
  have hst : (rxSubmit V e s).mem.bytes ((rxSubmit V e s).currentDataEntry + V.statusOffset) =
      e.rxRam V.statusOffset := by
    rw [f2, f3, Nat.zero_add]
  rw [handleRx_finished V _ _ (f1.trans hok) (hst.trans hfin)]
  generalize hS : ({ rxSubmit V e s with
    mem := ((rxSubmit V e s).mem.load ((rxSubmit V e s).currentDataEntry + V.statusOffset)).2 } :
      State) = S
  have b1 : S.mem.bytes = e.rxRam := by rw [← hS]; exact f2
  have b2 : S.currentDataEntry = 0 := by rw [← hS]; exact f3
  have b3 : S.console = s.console := by rw [← hS]; exact f6
  obtain ⟨x1, ⟨bytes, x2, x3⟩, x4⟩ := extractPacket_report S
  rw [b1, b2, Nat.zero_add] at x1 x2 x4
  rw [b1, b2, b3, Nat.zero_add] at x3
  exact ⟨x1, ⟨bytes, x2, x3⟩, x4⟩

theorem memcpy_bytes (dst src n : Nat) (m : Memory) (h : dst ≤ src) (a : Nat) :
    (memcpy dst src n m).bytes a =
      if dst ≤ a ∧ a < dst + n then m.bytes (src + (a - dst)) else m.bytes a := by
  induction n generalizing dst src m with
  | zero =>
    have : ¬ (dst ≤ a ∧ a < dst + 0) := by omega
    rw [if_neg this]
    rfl
  | succ n ih =>
    rw [memcpy, ih (dst + 1) (src + 1) _ (by omega)]
    simp only [Memory.load, Memory.store]
    by_cases h1 : dst + 1 ≤ a ∧ a < dst + 1 + n
    · have h2 : dst ≤ a ∧ a < dst + (n + 1) := by omega
      have h3 : ¬ (src + 1 + (a - (dst + 1)) = dst) := by omega
      rw [if_pos h1, if_pos h2, if_neg h3]
      congr 1
      omega
    · rw [if_neg h1]
      by_cases h4 : a = dst
      · have h2 : dst ≤ a ∧ a < dst + (n + 1) := by omega
        rw [if_pos h4, if_pos h2, h4, Nat.sub_self, Nat.add_zero]
      · have h2 : ¬ (dst ≤ a ∧ a < dst + (n + 1)) := by omega
        rw [if_neg h4, if_neg h2]

theorem loadBytes_values (p n : Nat) (m : Memory) :
    (loadBytes p n m).1 = (List.range n).map (fun i => m.bytes (p + i)) := by
  induction n generalizing p m with
  | zero => rfl
  | succ n ih =>
    simp only [loadBytes, ih, Memory.load, List.range_succ_eq_map, List.map_cons, List.map_map]
    congr 1
    apply List.map_congr_left
    intro i _
    simp only [Function.comp]
    congr 1
    omega

theorem extractPacket_short (s : State) (L : Nat)
    (hL : s.mem.bytes (s.currentDataEntry + DATA_ENTRY_HEADER_SIZE) = L) (h8 : L ≤ 8) :
    (extractPacket s).rxPacketLength = L ∧
    (∀ j, j ≤ L → (extractPacket s).mem.bytes j =
      s.mem.bytes (s.currentDataEntry + DATA_ENTRY_HEADER_SIZE + 1 + j)) ∧
    (extractPacket s).console = s.console ++
      [Out.dataReceived
        ((List.range L).map
          (fun i => s.mem.bytes (s.currentDataEntry + DATA_ENTRY_HEADER_SIZE + 1 + i))) L] := by
  have hm : s.mem.bytes (s.currentDataEntry + DATA_ENTRY_HEADER_SIZE) % 256 = L := by
    rw [hL]; omega
  have hb : ∀ a, (extractPacket s).mem.bytes a =
      if 0 ≤ a ∧ a < 0 + (L + 1) then
        s.mem.bytes (s.currentDataEntry + DATA_ENTRY_HEADER_SIZE + 1 + (a - 0))
      else s.mem.bytes a := by
    intro a
    simp only [extractPacket, toggleLED0, Memory.load, hm, loadBytes_bytes]
    rw [memcpy_bytes _ _ _ _ (by omega)]
  refine ⟨hm, ?_, ?_⟩
  · intro j hj
    rw [hb j, if_pos (by omega), Nat.sub_zero]
  · simp only [extractPacket, toggleLED0, Memory.load, hm, loadBytes_values]
    congr 3
    apply List.map_congr_left
    intro i hi
    rw [List.mem_range] at hi
    rw [memcpy_bytes _ _ _ _ (by omega)]
    simp only [DATA_ENTRY_HEADER_SIZE]
    rw [if_neg (by omega)]

/-! ## The claims -/

set_option maxRecDepth 8000

/-- Claim C1.  For every 16-bit value held in `seqNumber` when an iteration
starts, the packet built in lines 180-183 is `[s / 256, s % 256, 97, 97]`, its
first two bytes are the big-endian encoding of `s`, and `seqNumber` becomes
`(s + 1) % 65536` (so 65535 wraps to 0).  The same packet and counter are there
when the iteration ends, whatever the radio answers, and the TX command posted
in the iteration carries that packet. -/
theorem packet_build (V : Vendor) (e : Env) (s : State) (hpc : s.pc = Loc.loopTop)
    (hs : s.seqNumber < 65536) :
    (buildPacket s).txPacket = [s.seqNumber / 256, s.seqNumber % 256, 97, 97] ∧
    256 * (s.seqNumber / 256) + s.seqNumber % 256 = s.seqNumber ∧
    (buildPacket s).seqNumber = (s.seqNumber + 1) % 65536 ∧
    (s.seqNumber = 65535 → (buildPacket s).seqNumber = 0) ∧
    (cycle V e s).txPacket = [s.seqNumber / 256, s.seqNumber % 256, 97, 97] ∧
    (cycle V e s).seqNumber = (s.seqNumber + 1) % 65536 ∧
    (∃ rest, (cycle V e s).posted =
      s.posted ++ Cmd.propTx [s.seqNumber / 256, s.seqNumber % 256, 97, 97] s.txPktLen :: rest) := by
  have hhi : (s.seqNumber >>> 8) % 256 = s.seqNumber / 256 := by
    rw [Nat.shiftRight_eq_div_pow]
    omega
  have hb : (buildPacket s).txPacket = [s.seqNumber / 256, s.seqNumber % 256, 97, 97] := by
    simp [buildPacket, hhi]
  refine ⟨hb, by omega, by simp [buildPacket], ?_, ?_, ?_, ?_⟩
  · intro h; simp [buildPacket, h]
  · by_cases h : e.txResult &&& V.RF_EventLastCmdDone = 0
    · rw [cycle_tx_error V e s hpc h]
      simp [txPhase, postTx, printTx, buildPacket, toggleLED1, hhi]
    · rw [cycle_tx_done V e s hpc h, (rxPhase_frame V e _).2.1]
      simp [txPhase, postTx, printTx, buildPacket, toggleLED1, hhi]
  · by_cases h : e.txResult &&& V.RF_EventLastCmdDone = 0
    · rw [cycle_tx_error V e s hpc h]
      simp [txPhase, postTx, printTx, buildPacket, toggleLED1]
    · rw [cycle_tx_done V e s hpc h, (rxPhase_frame V e _).1]
      simp [txPhase, postTx, printTx, buildPacket, toggleLED1]
  · by_cases h : e.txResult &&& V.RF_EventLastCmdDone = 0
    · rw [cycle_tx_error V e s hpc h]
      exact ⟨[], by simp [txPhase, postTx, printTx, buildPacket, toggleLED1, hhi]⟩
    · rw [cycle_tx_done V e s hpc h, (rxPhase_frame V e _).2.2.2]
      exact ⟨_, by simp [txPhase, postTx, printTx, buildPacket, toggleLED1, hhi]; rfl⟩

theorem packet_build_witness :
    (taskInit resetState).pc = Loc.loopTop ∧ (taskInit resetState).seqNumber < 65536 ∧
    (cycle cc26xx quietEnv (taskInit resetState)).txPacket = [0, 0, 97, 97] ∧
    (cycle cc26xx quietEnv (taskInit resetState)).seqNumber = 1 :=
  ⟨rfl, by decide,
    (packet_build cc26xx quietEnv (taskInit resetState) rfl (by decide)).2.2.2.2.1,
    (packet_build cc26xx quietEnv (taskInit resetState) rfl (by decide)).2.2.2.2.2.1⟩

/-- Claim C2, evaluated at a packet of nine payload bytes `[1, ..., 9]` with status
byte 170.  `rxPacketLength` is 9 and `rxPacket[0..9]` holds the payload and
the status byte, but the bytes printed are `[170, 2, ..., 9]`: the copy to
`rxPacket` has overwritten offset 9, where the first payload byte was, before
the print loop reads it.  For the three-byte packet `[10, 20, 30]` the report
is the payload. -/
theorem extraction_log_overwritten :
    ninePacketEnv.rxStatus = cc26xx.PROP_DONE_OK ∧
    ninePacketEnv.rxRam cc26xx.statusOffset = cc26xx.DATA_ENTRY_FINISHED ∧
    (List.range 11).map (fun i => ninePacketEnv.rxRam (DATA_ENTRY_HEADER_SIZE + i)) =
      [9, 1, 2, 3, 4, 5, 6, 7, 8, 9, 170] ∧
    (cycle cc26xx ninePacketEnv (taskInit resetState)).rxPacketLength = 9 ∧
    (List.range 10).map (cycle cc26xx ninePacketEnv (taskInit resetState)).mem.bytes =
      [1, 2, 3, 4, 5, 6, 7, 8, 9, 170] ∧
    (cycle cc26xx ninePacketEnv (taskInit resetState)).console =
      [Out.frequencySet 2450, Out.sendingData [0, 0, 97, 97],
        Out.dataReceived [170, 2, 3, 4, 5, 6, 7, 8, 9] 9] ∧
    Out.dataReceived [1, 2, 3, 4, 5, 6, 7, 8, 9] 9 ∉
      (cycle cc26xx ninePacketEnv (taskInit resetState)).console ∧
    (cycle cc26xx (receiveEnv finishedHeader 3 [10, 20, 30] 170) (taskInit resetState)).console =
      [Out.frequencySet 2450, Out.sendingData [0, 0, 97, 97], Out.dataReceived [10, 20, 30] 3] := by
  refine ⟨by decide, by decide, by decide, by decide, by decide, by decide, by decide, by decide⟩

/-- Claim C3, as amended.  Extraction has no check of the declared length: for
every finished entry of an OK command, whatever its length byte `L`, the
iteration sets `rxPacketLength = L`, loads the `L + 1` bytes behind the length
byte, prints a received-data report of `L` bytes and goes on at the top of the
loop.  What keeps an over-long packet out is the radio's own filter:
`maxPktLen = RX_MAX_LENGTH` is set before the loop, kept by every iteration and
posted with the RX command. -/
theorem extraction_has_no_length_check (V : Vendor) (e : Env) (s : State) (L : Nat)
    (hpc : s.pc = Loc.loopTop)
    (htx : e.txResult &&& V.RF_EventLastCmdDone ≠ 0)
    (hrx : e.rxResult &&& V.RF_EventLastCmdDone ≠ 0)
    (hok : e.rxStatus = V.PROP_DONE_OK)
    (hfin : e.rxRam V.statusOffset = V.DATA_ENTRY_FINISHED)
    (hL : e.rxRam DATA_ENTRY_HEADER_SIZE = L) (hbyte : L < 256) :
    (cycle V e s).rxPacketLength = L ∧
    (∃ bytes, bytes.length = L ∧
      (cycle V e s).console =
        s.console ++ [Out.sendingData (buildPacket s).txPacket, Out.dataReceived bytes L]) ∧
    (∀ i, i ≤ L → DATA_ENTRY_HEADER_SIZE + 1 + i ∈ (cycle V e s).mem.touched) ∧
    (cycle V e s).pc = Loc.loopTop ∧
    (∃ txCmd t, (cycle V e s).posted =
      s.posted ++ [txCmd, Cmd.propRx s.maxPktLen t (some 0) none]) ∧
    (cycle V e s).maxPktLen = s.maxPktLen ∧
    (taskInit s).maxPktLen = RX_MAX_LENGTH := by
  have hkeep := cycle_maxPktLen V e s
  have hmod : e.rxRam DATA_ENTRY_HEADER_SIZE % 256 = L := by
    rw [hL]; exact Nat.mod_eq_of_lt hbyte
  have hpin := (rxPhase_done_pins V e (toggleLED1 (txPhase s)) hrx).2.2.1
  have hpost := (rxPhase_frame V e (toggleLED1 (txPhase s))).2.2.2
  obtain ⟨x1, ⟨bytes, x2, x3⟩, x4⟩ := rxPhase_data V e (toggleLED1 (txPhase s)) hrx hok hfin
  obtain ⟨-, -, q3, -, q5, -, -⟩ := txDone_fields s
  rw [cycle_tx_done V e s hpc htx] at hkeep ⊢
  rw [hmod] at x1 x2 x3 x4
  rw [q5] at x3
  rw [q3, hpc] at hpin
  refine ⟨x1, ⟨bytes, x2, ?_⟩, x4, hpin,
    ⟨Cmd.propTx (buildPacket s).txPacket s.txPktLen, rxEndTime e.now (pickTimeout e.rand), ?_⟩,
    hkeep, rfl⟩
  · rw [x3]; simp
  · rw [hpost]
    simp [txPhase, postTx, printTx, buildPacket, toggleLED1]

theorem extraction_has_no_length_check_witness :
    RX_MAX_LENGTH < 31 ∧
    (cycle cc26xx overlongEnv (taskInit resetState)).rxPacketLength = 31 :=
  ⟨by decide,
    (extraction_has_no_length_check cc26xx overlongEnv (taskInit resetState) 31 rfl (by decide)
      (by decide) (by decide) (by decide) (by decide) (by decide)).1⟩

/-- Claim C3 as stated fails for the length byte 31: the entry is not rejected
(`rxPacketLength` becomes 31 and a report of 31 bytes is printed) and offset 40,
beyond the 31 bytes of `rxPacket`, is loaded. -/
theorem overlong_length_not_rejected :
    overlongEnv.rxRam DATA_ENTRY_HEADER_SIZE = 31 ∧ RX_MAX_LENGTH < 31 ∧
    overlongEnv.rxStatus = cc26xx.PROP_DONE_OK ∧
    overlongEnv.rxRam cc26xx.statusOffset = cc26xx.DATA_ENTRY_FINISHED ∧
    (cycle cc26xx overlongEnv (taskInit resetState)).rxPacketLength = 31 ∧
    (∃ bytes, Out.dataReceived bytes 31 ∈
      (cycle cc26xx overlongEnv (taskInit resetState)).console) ∧
    40 ∈ (cycle cc26xx overlongEnv (taskInit resetState)).mem.touched ∧
    ¬ (40 < rxPacketSize) ∧
    ¬ ((cycle cc26xx overlongEnv (taskInit resetState)).rxPacketLength =
          (taskInit resetState).rxPacketLength ∧
        ∀ a ∈ (cycle cc26xx overlongEnv (taskInit resetState)).mem.touched, a < rxPacketSize) := by
  refine ⟨by decide, by decide, by decide, by decide, by decide, ?_, by decide, by decide, ?_⟩
  · exact ⟨(countingPayload 31).drop 9 ++ [170] ++ (countingPayload 31).drop 23, by decide⟩
  · intro h
    exact absurd h.1 (by decide)

/-- Claim C4.  For every prior state, after lines 221-225 the entry's status is 0
(pending), its length is `1 + RX_MAX_LENGTH + NUM_APPENDED_BYTES = 33`, the
queue's current entry is this entry and its last entry is `NULL`; a second
prior state gives the same four values. -/
theorem arm_resets_entry (V : Vendor) (s s' : State) (hV : V.WellFormed) :
    entryStatus V (armDataEntry V s) = 0 ∧
    entryLength V (armDataEntry V s) = 1 + RX_MAX_LENGTH + NUM_APPENDED_BYTES ∧
    entryLength V (armDataEntry V s) = 33 ∧
    (armDataEntry V s).currentDataEntry = 0 ∧
    (armDataEntry V s).pCurrEntry = some (armDataEntry V s).currentDataEntry ∧
    (armDataEntry V s).pLastEntry = none ∧
    entryStatus V (armDataEntry V s) = entryStatus V (armDataEntry V s') ∧
    entryLength V (armDataEntry V s) = entryLength V (armDataEntry V s') ∧
    (armDataEntry V s).pCurrEntry = (armDataEntry V s').pCurrEntry ∧
    (armDataEntry V s).pLastEntry = (armDataEntry V s').pLastEntry := by
  obtain ⟨_, _, h3, h4⟩ := hV
  have hl : ∀ x : State, entryLength V (armDataEntry V x) = 33 := by
    intro x
    have h5 : ¬ (V.lengthOffset + 1 = V.statusOffset) := fun h => h4 h.symm
    have h6 : ¬ (V.lengthOffset = V.statusOffset) := fun h => h3 h.symm
    simp [entryLength, armDataEntry, Memory.peek16, Memory.store16, Memory.store,
      RX_MAX_LENGTH, NUM_APPENDED_BYTES, h5, h6]
  have hs : ∀ x : State, entryStatus V (armDataEntry V x) = 0 := by
    intro x
    simp [entryStatus, armDataEntry, Memory.store16, Memory.store]
  refine ⟨hs s, ?_, hl s, rfl, rfl, rfl, ?_, ?_, rfl, rfl⟩
  · rw [hl s]; rfl
  · rw [hs s, hs s']
  · rw [hl s, hl s']

theorem arm_resets_entry_witness :
    cc26xx.WellFormed ∧
    entryStatus cc26xx (armDataEntry cc26xx (taskInit resetState)) = 0 ∧
    entryLength cc26xx (armDataEntry cc26xx (taskInit resetState)) = 33 :=
  ⟨by decide,
    (arm_resets_entry cc26xx (taskInit resetState) resetState (by decide)).1,
    (arm_resets_entry cc26xx (taskInit resetState) resetState (by decide)).2.2.1⟩

/-- Claim C5.  If the event mask of the TX or of the RX `RF_pendCmd` lacks the done
event, the task ends the iteration in a `while(1);` and every later iteration
leaves the whole state as it is: no command is posted any more and the
sequence counter, the packet and the memory do not change.  After a TX
error only the TX command has been posted in this iteration. -/
theorem command_error_halts (V : Vendor) (e : Env) (s : State) (es : List Env)
    (herr : e.txResult &&& V.RF_EventLastCmdDone = 0 ∨ e.rxResult &&& V.RF_EventLastCmdDone = 0) :
    (cycle V e s).pc ≠ Loc.loopTop ∧
    run V es (cycle V e s) = cycle V e s ∧
    (run V es (cycle V e s)).posted = (cycle V e s).posted ∧
    (run V es (cycle V e s)).seqNumber = (cycle V e s).seqNumber ∧
    (run V es (cycle V e s)).txPacket = (cycle V e s).txPacket ∧
    (run V es (cycle V e s)).mem = (cycle V e s).mem ∧
    (s.pc = Loc.loopTop → e.txResult &&& V.RF_EventLastCmdDone = 0 →
      (cycle V e s).pc = Loc.spinTx ∧
      (cycle V e s).posted = s.posted ++ [Cmd.propTx (buildPacket s).txPacket s.txPktLen]) ∧
    (s.pc = Loc.loopTop → e.txResult &&& V.RF_EventLastCmdDone ≠ 0 →
      e.rxResult &&& V.RF_EventLastCmdDone = 0 → (cycle V e s).pc = Loc.spinRx) := by
  have htxe : s.pc = Loc.loopTop → e.txResult &&& V.RF_EventLastCmdDone = 0 →
      (cycle V e s).pc = Loc.spinTx ∧
      (cycle V e s).posted = s.posted ++ [Cmd.propTx (buildPacket s).txPacket s.txPktLen] := by
    intro hpc h
    rw [cycle_tx_error V e s hpc h]
    simp [txPhase, postTx, printTx, buildPacket, toggleLED1]
  have hrxe : s.pc = Loc.loopTop → e.txResult &&& V.RF_EventLastCmdDone ≠ 0 →
      e.rxResult &&& V.RF_EventLastCmdDone = 0 → (cycle V e s).pc = Loc.spinRx := by
    intro hpc h h'
    rw [cycle_tx_done V e s hpc h]
    rw [rxPhase_error V e _ h']
  have hpc : (cycle V e s).pc ≠ Loc.loopTop := by
    cases hp : s.pc with
    | spinTx => simp [cycle, hp]
    | spinRx => simp [cycle, hp]
    | loopTop =>
      by_cases h : e.txResult &&& V.RF_EventLastCmdDone = 0
      · rw [(htxe hp h).1]; decide
      · rcases herr with h' | h'
        · exact absurd h' h
        · rw [hrxe hp h h']; decide
  have hrun := run_spin V es (cycle V e s) hpc
  exact ⟨hpc, hrun, by rw [hrun], by rw [hrun], by rw [hrun], by rw [hrun], htxe, hrxe⟩

theorem command_error_halts_witness :
    (txErrorEnv.txResult &&& cc26xx.RF_EventLastCmdDone = 0 ∨
      txErrorEnv.rxResult &&& cc26xx.RF_EventLastCmdDone = 0) ∧
    (cycle cc26xx txErrorEnv (taskInit resetState)).pc ≠ Loc.loopTop ∧
    run cc26xx [quietEnv, quietEnv] (cycle cc26xx txErrorEnv (taskInit resetState)) =
      cycle cc26xx txErrorEnv (taskInit resetState) :=
  ⟨Or.inl (by decide),
    (command_error_halts cc26xx txErrorEnv (taskInit resetState) [quietEnv, quietEnv]
      (Or.inl (by decide))).1,
    (command_error_halts cc26xx txErrorEnv (taskInit resetState) [quietEnv, quietEnv]
      (Or.inl (by decide))).2.1⟩

/-- Claim C6.  When the RX command is done but its status is not OK, or the entry's
status is not finished, the iteration leaves `rxPacketLength` and the memory
as the radio left it, loads nothing but the entry's status byte (no offset
from the header size on), prints no received-data report (a timeout report
with the chosen timeout, an other-reason report with the status, or nothing),
and ends at the top of the loop. -/
theorem no_extraction_unless_ok_finished (V : Vendor) (e : Env) (s : State)
    (hV : V.WellFormed) (hpc : s.pc = Loc.loopTop)
    (htx : e.txResult &&& V.RF_EventLastCmdDone ≠ 0)
    (hrx : e.rxResult &&& V.RF_EventLastCmdDone ≠ 0)
    (hno : ¬ (e.rxStatus = V.PROP_DONE_OK ∧ e.rxRam V.statusOffset = V.DATA_ENTRY_FINISHED)) :
    (cycle V e s).rxPacketLength = s.rxPacketLength ∧
    (cycle V e s).mem.bytes = e.rxRam ∧
    (cycle V e s).mem.touched =
      s.mem.touched ++ [V.lengthOffset, V.lengthOffset + 1, V.statusOffset] ++
        (if e.rxStatus = V.PROP_DONE_OK then [V.statusOffset] else []) ∧
    (∀ a ∈ (cycle V e s).mem.touched, a ∈ s.mem.touched ∨ a < DATA_ENTRY_HEADER_SIZE) ∧
    (∃ w, (cycle V e s).console = s.console ++ Out.sendingData (buildPacket s).txPacket :: w ∧
      w = (if e.rxStatus = V.PROP_DONE_OK then []
        else if e.rxStatus = V.PROP_DONE_RXTIMEOUT then [Out.timeoutExpired (pickTimeout e.rand)]
        else [Out.otherReason e.rxStatus]) ∧
      ∀ bytes len, Out.dataReceived bytes len ∉ w) ∧
    (cycle V e s).endTime = rxEndTime e.now (pickTimeout e.rand) ∧
    (cycle V e s).pc = Loc.loopTop := by
  obtain ⟨v1, v2, -, -⟩ := hV
  have hpin := (rxPhase_done_pins V e (toggleLED1 (txPhase s)) hrx).2.2.1
  rw [cycle_tx_done V e s hpc htx]
  obtain ⟨r1, r2, r3, r4, r5⟩ := rxPhase_no_data V e (toggleLED1 (txPhase s)) hrx hno
  obtain ⟨-, -, q3, -, q5, q6, q7⟩ := txDone_fields s
  rw [q7] at r1
  rw [q6] at r3
  rw [q5] at r4
  rw [q3, hpc] at hpin
  refine ⟨r1, r2, r3, ?_, ⟨_, ?_, rfl, ?_⟩, r5, hpin⟩
  · intro a ha
    rw [r3] at ha
    simp only [List.mem_append, List.mem_cons, List.mem_singleton, List.not_mem_nil,
      or_false] at ha
    rcases ha with (ha | ha | ha | ha) | ha
    · exact Or.inl ha
    · right; omega
    · right; omega
    · right; omega
    · right
      split at ha
      · simp only [List.mem_singleton] at ha; omega
      · simp at ha
  · rw [r4]
    simp
  · intro bytes len
    split
    · simp
    · split <;> simp

theorem no_extraction_unless_ok_finished_witness :
    (cycle cc26xx quietEnv (taskInit resetState)).rxPacketLength = 0 ∧
    (cycle cc26xx quietEnv (taskInit resetState)).pc = Loc.loopTop :=
  ⟨(no_extraction_unless_ok_finished cc26xx quietEnv (taskInit resetState) (by decide) rfl
      (by decide) (by decide) (by decide)).1,
    (no_extraction_unless_ok_finished cc26xx quietEnv (taskInit resetState) (by decide) rfl
      (by decide) (by decide) (by decide)).2.2.2.2.2.2⟩

/-- Claim C7.  For every value `r ≥ 0` of `rand()` the timeout of line 228, stored
in a `uint8_t`, is `3 + r % 4`; it lies in `[RX_MIN_TIMEOUT, RX_MAX_TIMEOUT)`,
is never 7, and each of 3, 4, 5, 6 is the timeout of some `r`. -/
theorem timeout_range (r : Nat) :
    pickTimeout r = 3 + r % 4 ∧
    RX_MIN_TIMEOUT ≤ pickTimeout r ∧ pickTimeout r < RX_MAX_TIMEOUT ∧
    pickTimeout r ≠ 7 ∧
    (∀ v, 3 ≤ v → v < 7 → ∃ r', pickTimeout r' = v) := by
  have h : pickTimeout r = 3 + r % 4 := by
    simp only [pickTimeout, RX_MIN_TIMEOUT, RX_MAX_TIMEOUT]
    omega
  refine ⟨h, ?_, ?_, ?_, ?_⟩
  · simp only [h, RX_MIN_TIMEOUT]; omega
  · simp only [h, RX_MAX_TIMEOUT]; omega
  · omega
  · intro v h3 h7
    refine ⟨v - 3, ?_⟩
    simp only [pickTimeout, RX_MIN_TIMEOUT, RX_MAX_TIMEOUT]
    omega

/-- Claim C8.  For every radio time `now` and every timeout `t` in `[3, 7)` the end
time of line 230 is `(now + t * 8000000 / 2) % 2^32 = (now + t * 4000000) % 2^32`:
the `int` product stays below `2^31`, its conversion to `float` is exact, and
it is even, so halving and truncating lose nothing.  In an iteration whose TX
command is done, the RX command is posted with exactly that end time for the
timeout `3 + rand % 4`. -/
theorem rx_deadline (V : Vendor) (e : Env) (s : State) (now t : Nat)
    (h3 : RX_MIN_TIMEOUT ≤ t) (h7 : t < RX_MAX_TIMEOUT)
    (hpc : s.pc = Loc.loopTop) (htx : e.txResult &&& V.RF_EventLastCmdDone ≠ 0) :
    rxEndTime now t = (now + t * 8000000 / 2) % 2 ^ 32 ∧
    rxEndTime now t = (now + t * 4000000) % 2 ^ 32 ∧
    t * 8000000 < 2 ^ 31 ∧
    intToFloat32 (t * 8000000) = t * 8000000 ∧
    t * 8000000 % 2 = 0 ∧
    halfTicks t = t * 4000000 ∧
    (∃ txCmd, (cycle V e s).posted = s.posted ++ [txCmd,
      Cmd.propRx s.maxPktLen ((e.now + (3 + e.rand % 4) * 4000000) % 2 ^ 32) (some 0) none]) := by
  simp only [RX_MIN_TIMEOUT, RX_MAX_TIMEOUT] at h3 h7
  obtain ⟨hf, hh⟩ := halfTicks_exact t h3 h7
  have hp : pickTimeout e.rand = 3 + e.rand % 4 := by
    simp only [pickTimeout, RX_MIN_TIMEOUT, RX_MAX_TIMEOUT]
    omega
  refine ⟨?_, ?_, by omega, hf, by omega, hh, ?_⟩
  · rw [rxEndTime, hh]
    congr 2
    omega
  · rw [rxEndTime, hh]
  · rw [cycle_tx_done V e s hpc htx, (rxPhase_frame V e _).2.2.2]
    have hh' := (halfTicks_exact (3 + e.rand % 4) (by omega) (by omega)).2
    refine ⟨Cmd.propTx (buildPacket s).txPacket s.txPktLen, ?_⟩
    simp [txPhase, postTx, printTx, buildPacket, toggleLED1, hp, rxEndTime, hh']

theorem rx_deadline_witness :
    RX_MIN_TIMEOUT ≤ 5 ∧ 5 < RX_MAX_TIMEOUT ∧ rxEndTime 4294967295 5 = 19999999 :=
  ⟨by decide, by decide,
    (rx_deadline cc26xx quietEnv (taskInit resetState) 4294967295 5 (by decide) (by decide) rfl
      (by decide)).2.1⟩

/-- Claim C9.  In an iteration in which both commands are done, `Board_LED1` is
written exactly twice and `Board_LED0` two times without data and four times
when a packet is extracted; each write is the negation of the value before,
so both LEDs end the iteration with the value they had at its start, for every
RX outcome. -/
theorem indicators_restored (V : Vendor) (e : Env) (s : State) (hpc : s.pc = Loc.loopTop)
    (htx : e.txResult &&& V.RF_EventLastCmdDone ≠ 0)
    (hrx : e.rxResult &&& V.RF_EventLastCmdDone ≠ 0) :
    (cycle V e s).led1 = s.led1 ∧ (cycle V e s).led0 = s.led0 ∧
    (cycle V e s).pc = Loc.loopTop ∧
    (∃ w, (cycle V e s).pinLog = s.pinLog ++ w ∧
      w = [(Pin.Board_LED1, !s.led1), (Pin.Board_LED1, s.led1), (Pin.Board_LED0, !s.led0)] ++
        (if e.rxStatus = V.PROP_DONE_OK ∧ e.rxRam V.statusOffset = V.DATA_ENTRY_FINISHED
          then [(Pin.Board_LED0, s.led0), (Pin.Board_LED0, !s.led0)] else []) ++
        [(Pin.Board_LED0, s.led0)] ∧
      (w.filter (fun x => x.1 = Pin.Board_LED1)).length = 2 ∧
      (w.filter (fun x => x.1 = Pin.Board_LED0)).length =
        (if e.rxStatus = V.PROP_DONE_OK ∧ e.rxRam V.statusOffset = V.DATA_ENTRY_FINISHED
          then 4 else 2)) := by
  rw [cycle_tx_done V e s hpc htx]
  obtain ⟨p1, p2, p3, p4⟩ := rxPhase_done_pins V e (toggleLED1 (txPhase s)) hrx
  obtain ⟨q1, q2, q3, q4, -, -, -⟩ := txDone_fields s
  rw [q1] at p1
  rw [q2] at p2 p4
  rw [q3, hpc] at p3
  rw [q4] at p4
  refine ⟨p1, p2, p3, _, ?_, rfl, ?_, ?_⟩
  · rw [p4]
    simp
  · split <;> simp [List.filter]
  · split <;> simp [List.filter]

theorem indicators_restored_witness :
    (cycle cc26xx (receiveEnv finishedHeader 3 [10, 20, 30] 170) (taskInit resetState)).led1 = false ∧
    (cycle cc26xx (receiveEnv finishedHeader 3 [10, 20, 30] 170) (taskInit resetState)).led0 = false :=
  ⟨(indicators_restored cc26xx (receiveEnv finishedHeader 3 [10, 20, 30] 170) (taskInit resetState)
      rfl (by decide) (by decide)).1,
    (indicators_restored cc26xx (receiveEnv finishedHeader 3 [10, 20, 30] 170) (taskInit resetState)
      rfl (by decide) (by decide)).2.1⟩

/-- Claim C10, evaluated.  The length armed in line 222 is 33, `rxPacket` has 31
bytes, and `DATA_ENTRY_HEADER_SIZE + 33 = 41` is not at most 31.  For a packet
with length byte 22, which the radio accepts, the status byte lies at offset
31, outside `rxPacket`, and the task's own copy loads that offset. -/
theorem armed_entry_exceeds_rxPacket :
    entryLength cc26xx (armDataEntry cc26xx (taskInit resetState)) = 33 ∧
    rxPacketSize = 31 ∧
    ¬ (DATA_ENTRY_HEADER_SIZE + entryLength cc26xx (armDataEntry cc26xx (taskInit resetState)) ≤
        rxPacketSize) ∧
    22 ≤ RX_MAX_LENGTH ∧
    31 ∈ radioStoreOffsets (armDataEntry cc26xx (taskInit resetState)).currentDataEntry 22 ∧
    ¬ (31 < rxPacketSize) ∧
    31 ∈ (cycle cc26xx (receiveEnv finishedHeader 22 (countingPayload 22) 170)
      (taskInit resetState)).mem.touched := by
  refine ⟨by decide, by decide, by decide, by decide, by decide, by decide, by decide⟩

/-- A packet of at most eight payload bytes is extracted as claim C2 says: the
length is stored, `rxPacket[0..L]` holds the payload and the status byte, and
the report prints the payload in order. -/
theorem short_packet_extracted (V : Vendor) (e : Env) (s : State) (L : Nat)
    (hpc : s.pc = Loc.loopTop)
    (htx : e.txResult &&& V.RF_EventLastCmdDone ≠ 0)
    (hrx : e.rxResult &&& V.RF_EventLastCmdDone ≠ 0)
    (hok : e.rxStatus = V.PROP_DONE_OK)
    (hfin : e.rxRam V.statusOffset = V.DATA_ENTRY_FINISHED)
    (hL : e.rxRam DATA_ENTRY_HEADER_SIZE = L) (h8 : L ≤ 8) :
    (cycle V e s).rxPacketLength = L ∧
    (∀ j, j ≤ L → (cycle V e s).mem.bytes j = e.rxRam (DATA_ENTRY_HEADER_SIZE + 1 + j)) ∧
    (cycle V e s).console = s.console ++
      [Out.sendingData (buildPacket s).txPacket,
        Out.dataReceived
          ((List.range L).map (fun i => e.rxRam (DATA_ENTRY_HEADER_SIZE + 1 + i))) L] := by
  rw [cycle_tx_done V e s hpc htx, rxPhase_done V e _ hrx]
  obtain ⟨f1, f2, f3, -, -, f6, -, -, -, -, -⟩ := rxSubmit_fields V e (toggleLED1 (txPhase s))
  obtain ⟨-, -, -, -, q5, -, -⟩ := txDone_fields s
  have hst : (rxSubmit V e (toggleLED1 (txPhase s))).mem.bytes
      ((rxSubmit V e (toggleLED1 (txPhase s))).currentDataEntry + V.statusOffset) =
        e.rxRam V.statusOffset := by
    rw [f2, f3, Nat.zero_add]
  rw [handleRx_finished V _ _ (f1.trans hok) (hst.trans hfin)]
  generalize hS : ({ rxSubmit V e (toggleLED1 (txPhase s)) with
    mem := ((rxSubmit V e (toggleLED1 (txPhase s))).mem.load
      ((rxSubmit V e (toggleLED1 (txPhase s))).currentDataEntry + V.statusOffset)).2 } :
        State) = S
  have b1 : S.mem.bytes = e.rxRam := by rw [← hS]; exact f2
  have b2 : S.currentDataEntry = 0 := by rw [← hS]; exact f3
  have b3 : S.console = s.console ++ [Out.sendingData (buildPacket s).txPacket] := by
    rw [← hS]; exact f6.trans q5
  obtain ⟨x1, x2, x3⟩ := extractPacket_short S L (by rw [b1, b2, Nat.zero_add]; exact hL) h8
  rw [b1, b2, Nat.zero_add] at x2
  rw [b1, b2, b3, Nat.zero_add] at x3
  refine ⟨x1, x2, ?_⟩
  show (extractPacket S).console = _
  rw [x3]
  simp

theorem short_packet_extracted_witness :
    (cycle cc26xx (receiveEnv finishedHeader 3 [10, 20, 30] 170) (taskInit resetState)).console =
      (taskInit resetState).console ++
        [Out.sendingData (buildPacket (taskInit resetState)).txPacket,
          Out.dataReceived
            ((List.range 3).map (fun i =>
              (receiveEnv finishedHeader 3 [10, 20, 30] 170).rxRam (DATA_ENTRY_HEADER_SIZE + 1 + i)))
            3] :=
  (short_packet_extracted cc26xx (receiveEnv finishedHeader 3 [10, 20, 30] 170)
    (taskInit resetState) 3 rfl (by decide) (by decide) (by decide) (by decide) (by decide)
    (by decide)).2.2

end Transceiver
